import Mathlib

/-!
Shallow embedding of the core of the `acmeapi` ACME client library
(`acmeapi/api.go`) and proofs about it.

Conventions used throughout:

* Machine integers that matter (the 31-bit bound of `strconv.ParseUint(v, 10, 31)`)
  are modelled as `Nat` with an explicit `< 2 ^ 31` bound; time instants and
  durations are `Int` seconds.
* A nil Go slice is `none`, a non-nil slice (even an empty one) is `some l`;
  this distinction is observable in `Authorization.validate`, which only
  synthesizes combinations when the decoded slice is nil.
* Network traffic is modelled by oracles: an `Except String HttpResponse`
  standing for the outcome of one HTTP round trip (`Except.error` covers
  transport failures and, where noted, body-decode failures), or a function
  `String → Except String HttpResponse` mapping a URL to such an outcome when
  a function issues several requests.
* Fallible Go functions returning `(value, error)` become `Except` where the
  caller only forwards a non-nil error, and explicit pairs where the caller
  inspects the value even alongside a non-nil error (`getRegistrationURI`).
* `TestingNoTLS` is `false` (its default); the test-only URL rewriting at the
  top of `doReqEx` is therefore a no-op and elided.
* Error message strings follow the Go `fmt.Errorf` strings with the `%#v`/`%v`
  quoting and argument formatting simplified to plain concatenation.
-/

set_option autoImplicit false

namespace Acme

/-- Status of an authorization or challenge (api.go:97). -/
abbrev Status := String

/-- Embeds `Status.Valid` (api.go:109-116): true iff the status is one of the
six recognised status strings. -/
def Status.Valid (s : Status) : Bool :=
  s == "unknown" || s == "pending" || s == "processing" ||
  s == "valid" || s == "invalid" || s == "revoked"

/-- Embeds `Status.Final` (api.go:119-126): true iff the status is a final
status. -/
def Status.Final (s : Status) : Bool :=
  s == "valid" || s == "invalid" || s == "revoked"

/-- Embeds `Status.UnmarshalJSON` (api.go:128-141) after the stdlib JSON
string decode: `ss` is the decoded string, `s` the current value of the
target. Result: the error (if any) paired with the value of the target after
the call — the target is assigned only when the string is a valid status. -/
def Status.unmarshalJSON (ss : String) (s : Status) : Option String × Status :=
  if Status.Valid ss = true then (none, ss)
  else (some ("not a valid status: " ++ ss), s)

/-- Model of the `crypto.PrivateKey` values `algorithmFromKey` distinguishes:
an `*rsa.PrivateKey`, an `*ecdsa.PrivateKey` carrying its curve name
(`v.Curve.Params().Name`), or any other key type carrying its `%T` name. -/
inductive PrivateKey where
  | rsa : PrivateKey
  | ecdsa (curveName : String) : PrivateKey
  | other (typeName : String) : PrivateKey
deriving DecidableEq

/-- Embeds `algorithmFromKey` (api.go:263-282); the `jose.SignatureAlgorithm`
constants are their underlying strings. -/
def algorithmFromKey : PrivateKey → Except String String
  | .rsa => .ok "RS256"
  | .ecdsa name =>
    if name = "P-256" then .ok "ES256"
    else if name = "P-384" then .ok "ES384"
    else if name = "P-521" then .ok "ES512"
    else .error ("unsupported ECDSA curve: " ++ name)
  | .other t => .error ("unsupported private key type: " ++ t)

/-- Value of a list of decimal digit characters. -/
def digitsVal (l : List Char) : Nat :=
  l.foldl (fun acc c => acc * 10 + (c.toNat - 48)) 0

/-- Embeds `strconv.ParseUint(v, 10, 31)` as used at api.go:394: accepts a
non-empty string of ASCII digits (no sign, no underscores in base 10) whose
value fits in 31 bits; any other input is an error (`none`). -/
def parseUint31 (s : String) : Option Nat :=
  if s.data = [] then none
  else if s.data.all Char.isDigit then
    if digitsVal s.data < 2 ^ 31 then some (digitsVal s.data) else none
  else none

/-- Embeds `parseRetryAfter` (api.go:388-405). `v` is the `Retry-After` header
value (`""` when the header is absent, as `http.Header.Get` returns). Times
are `Int` seconds; `parseDate` abstracts `time.Parse(time.RFC1123, v)`
(`none` = parse error); `now` is the current instant. `none` models the
`(time.Time{}, false)` "not present" result. -/
def parseRetryAfter (parseDate : String → Option Int) (now : Int) (v : String) :
    Option Int :=
  if v = "" then none
  else
    match parseUint31 v with
    | some n => some (now + (n : Int))
    | none => parseDate v

/-- Embeds `retryAtDefault` (api.go:407-414). -/
def retryAtDefault (parseDate : String → Option Int) (now : Int) (v : String)
    (d : Int) : Int :=
  match parseRetryAfter parseDate now v with
  | some t => t
  | none => now + d

/-- Model of `Identifier` (api.go:91-94). -/
structure Identifier where
  type : String := ""
  value : String := ""
deriving DecidableEq

/-- Model of `Challenge` (api.go:144-160); the per-type fields (`n`, `certs`)
and `validated` are irrelevant to the claims and elided. -/
structure Challenge where
  uri : String := ""
  type : String := ""
  status : Status := ""
  token : String := ""
  retryAt : Int := 0
deriving DecidableEq

/-- Model of `Authorization` (api.go:164-175). `combinations = none` models a
nil Go `[][]int` slice, `some l` a non-nil slice (possibly empty); indices are
`Int` like Go's `int`. -/
structure Authorization where
  uri : String := ""
  identifier : Identifier := {}
  status : Status := ""
  challenges : List Challenge := []
  combinations : Option (List (List Int)) := none
  retryAt : Int := 0
deriving DecidableEq

/-- Model of `Certificate` (api.go:178-193); DER buffers are opaque byte
lists. -/
structure Certificate where
  uri : String := ""
  certificate : List Nat := []
  extraCertificates : List (List Nat) := []
  csr : List Nat := []
  retryAt : Int := 0
deriving DecidableEq

/-- The fields of a server authorization JSON body that the embedding tracks,
each `none` when the field is absent from the JSON (or JSON null):
`encoding/json` leaves the target's field untouched in that case, and — for
the `combinations` slice — produces a non-nil (possibly empty) slice exactly
when a JSON array is present. -/
structure AzResponseBody where
  identifier : Option Identifier := none
  status : Option Status := none
  challenges : Option (List Challenge) := none
  combinations : Option (List (List Int)) := none
deriving DecidableEq

/-- The decoded `regInfo` fields the embedding tracks (api.go:74-83). -/
structure RegInfoBody where
  agreementURI : String := ""
deriving DecidableEq

/-- Model of the parts of an `*http.Response` the embedded code reads: status
code, selected headers (`Location`, `Content-Type`, `Retry-After`,
`Replay-Nonce`, and the `rel="terms-of-service"` / `rel="up"` Link header
entries as `link.ParseResponse` exposes them), the raw body bytes (as
`ioutil.ReadAll` returns them), and the JSON decodings of the body used by
specific call sites (`azBody` for an `Authorization` decode target, `regBody`
for a `regInfo` one; `none` means the body does not decode to that shape). -/
structure HttpResponse where
  statusCode : Nat := 200
  location : String := ""
  contentType : String := ""
  retryAfter : String := ""
  replayNonce : String := ""
  tosLink : Option String := none
  upLink : Option String := none
  rawBody : List Nat := []
  azBody : Option AzResponseBody := none
  regBody : Option RegInfoBody := none
deriving DecidableEq

/-- JSON decoding of a server authorization body into an existing
`Authorization` value, following `encoding/json` merge semantics: a field
absent from the body keeps its current value in the target; a present
`combinations` array (even an empty one) replaces the field with a non-nil
slice. The `uri` field is json:"-" and never decoded. -/
def decodeAzInto (az : Authorization) (b : AzResponseBody) : Authorization :=
  { az with
    identifier := b.identifier.getD az.identifier
    status := b.status.getD az.status
    challenges := b.challenges.getD az.challenges
    combinations :=
      match b.combinations with
      | none => az.combinations
      | some l => some l }

/-- Embeds the response handling of `doReqEx` for a request with no decode
target (api.go:344-357 with `r = nil`): a transport error or an HTTP status
in [400,600) surfaces as an error, any other response is returned. (Nonce
harvesting does not affect the callers modelled with this helper; it is
modelled explicitly in `doReqEx` below.) -/
def doReqGet (net : Except String HttpResponse) : Except String HttpResponse :=
  match net with
  | .error e => .error e
  | .ok res =>
    if 400 ≤ res.statusCode ∧ res.statusCode < 600 then
      .error ("HTTP error: " ++ toString res.statusCode)
    else .ok res

/-- Embeds `doReq` with an `Authorization` decode target (api.go:344-371):
after the status check, the response must carry `Content-Type:
application/json` and a body decodable as an authorization. The callers using
this helper (`LoadAuthorization`, `NewAuthorization`) forward any non-nil
error without reading the response, so the Go `(res, err)` pair collapses to
an `Except`. -/
def doReqAz (net : Except String HttpResponse) :
    Except String (HttpResponse × AzResponseBody) :=
  match net with
  | .error e => .error e
  | .ok res =>
    if 400 ≤ res.statusCode ∧ res.statusCode < 600 then
      .error ("HTTP error: " ++ toString res.statusCode)
    else if res.contentType ≠ "application/json" then
      .error ("unexpected content type: " ++ res.contentType)
    else
      match res.azBody with
      | none => .error "json decode error"
      | some b => .ok (res, b)

/-- Embeds `doReq` with a `regInfo` decode target, keeping Go's `(res, err)`
pair shape (api.go:344-371): `getRegistrationURI` inspects the response even
when `err` is non-nil. A 4xx/5xx status returns `(res, err)` before the
decode step; a content-type mismatch returns `(res, err)`; a body that fails
to decode returns `(nil, err)`, exactly as the source does. -/
def doReqReg (net : Except String HttpResponse) :
    Option HttpResponse × Option String :=
  match net with
  | .error e => (none, some e)
  | .ok res =>
    if 400 ≤ res.statusCode ∧ res.statusCode < 600 then
      (some res, some ("HTTP error: " ++ toString res.statusCode))
    else if res.contentType ≠ "application/json" then
      (some res, some ("unexpected content type: " ++ res.contentType))
    else
      match res.regBody with
      | none => (none, some "json decode error")
      | some _ => (some res, none)

/-- Except form of `doReqReg` for `UpsertRegistration`, which returns on any
non-nil error without reading the response. -/
def doReqRegE (net : Except String HttpResponse) :
    Except String (HttpResponse × RegInfoBody) :=
  match net with
  | .error e => .error e
  | .ok res =>
    if 400 ≤ res.statusCode ∧ res.statusCode < 600 then
      .error ("HTTP error: " ++ toString res.statusCode)
    else if res.contentType ≠ "application/json" then
      .error ("unexpected content type: " ++ res.contentType)
    else
      match res.regBody with
      | none => .error "json decode error"
      | some b => .ok (res, b)

/-- The combination-synthesis step of `Authorization.validate`
(api.go:561-567): when `combinations` is a nil slice, install the single
combination listing every challenge index in order; a non-nil slice (even an
empty one) is kept as-is. -/
def Authorization.synthCombinations (az : Authorization) : Authorization :=
  match az.combinations with
  | none =>
    { az with
      combinations :=
        some [(List.range az.challenges.length).map (fun k => (k : Int))] }
  | some _ => az

/-- Embeds `Authorization.validate` (api.go:552-578). The commented-out
resource check of the source is likewise absent. After the synthesis step,
every index of every combination must be `< len(az.Challenges)` (Go checks
`i >= len(az.Challenges)`, so negative indices pass). Go mutates `az` in
place and returns an error; the model returns the updated value on
success. -/
def Authorization.validate (az : Authorization) : Except String Authorization :=
  if az.challenges.length = 0 then .error "no challenges offered"
  else
    let az' : Authorization := az.synthCombinations
    if (az'.combinations.getD []).all
        (fun comb => comb.all (fun i => decide (i < (az.challenges.length : Int)))) then
      .ok az'
    else .error "one or more combinations are malformed"

/-- Embeds `Client.LoadAuthorization` (api.go:524-539): clear `combinations`
(api.go:525), GET `az.URI` decoding the body into `az`, validate, and record
the next poll instant from `Retry-After` with a 10 second default.
`parseDate`/`now` are as in `parseRetryAfter`; `net` is the outcome of the
GET. -/
def LoadAuthorization (parseDate : String → Option Int) (now : Int)
    (az : Authorization) (net : Except String HttpResponse) :
    Except String Authorization :=
  let az0 : Authorization := { az with combinations := none }
  match doReqAz net with
  | .error e => .error e
  | .ok (res, body) =>
    match (decodeAzInto az0 body).validate with
    | .error e => .error e
    | .ok az1 =>
      .ok { az1 with retryAt := retryAtDefault parseDate now res.retryAfter 10 }

/-- Embeds `Client.NewAuthorization` (api.go:619-651): POST a fresh
`new-authz` object for `hostname` (decoded back into the same value), require
status 201 and a `Location` passing `ValidURL` (abstracted as `validURL`),
set the URI from `Location`, and validate. The directory fetch is assumed to
have succeeded (its failure is an unrelated early error path). -/
def NewAuthorization (validURL : String → Bool) (hostname : String)
    (net : Except String HttpResponse) : Except String Authorization :=
  let az : Authorization := { identifier := { type := "dns", value := hostname } }
  match doReqAz net with
  | .error e => .error e
  | .ok (res, body) =>
    let az1 := decodeAzInto az body
    if res.statusCode ≠ 201 ∨ validURL res.location = false then
      .error "expected status code 201 and valid Location header"
    else
      ({ az1 with uri := res.location } : Authorization).validate

/-- Embeds `Client.loadExtraCertificates` (api.go:743-781) as a fuel-indexed
unfolding of its unconditional `for` loop. `serve` maps a URL to the outcome
of the `doReq GET` issued for it; `resolve` abstracts `url.Parse` of both
URIs followed by `ResolveReference` (`none` models a parse returning nil).
The result is `none` when `fuel` iterations did not complete the walk — the
source loop has no iteration bound or visited set, so actual divergence of
the Go loop is exactly `∀ fuel, result = none` — and otherwise
`some (err?, extras)` where `extras` is the value of `crt.ExtraCertificates`
after the call (the field is cleared before the walk, api.go:744, and keeps
the intermediates appended so far when an iteration fails). -/
def loadExtraCertificates (serve : String → Except String HttpResponse)
    (resolve : String → String → Option String) (crtURI : String) :
    Nat → HttpResponse → List (List Nat) → Option (Option String × List (List Nat))
  | 0, _, _ => none
  | fuel + 1, res, acc =>
    match res.upLink with
    | none => some (none, acc)
    | some up =>
      match resolve crtURI up with
      | none => some (some "invalid URI", acc)
      | some u =>
        match doReqGet (serve u) with
        | .error e => some (some e, acc)
        | .ok res2 =>
          if res2.contentType ≠ "application/pkix-cert" then
            some (some ("unexpected certificate type: " ++ res2.contentType), acc)
          else
            loadExtraCertificates serve resolve crtURI fuel res2
              (acc ++ [res2.rawBody])

/-- Embeds `Client.loadCertificate` (api.go:720-741). `res` is the response
being examined (from `LoadCertificate`'s GET or `RequestCertificate`'s POST);
`fuel` bounds the chain walk as in `loadExtraCertificates` (`none` = the walk
exceeded it). The result pairs the returned error (if any) with the
certificate state after the call: Go mutates `crt` in place, so on a
chain-walk error the already-captured leaf and the intermediates collected so
far are kept while `retryAt` is not updated. -/
def loadCertificate (serve : String → Except String HttpResponse)
    (resolve : String → String → Option String)
    (parseDate : String → Option Int) (now : Int)
    (crt : Certificate) (res : HttpResponse) (fuel : Nat) :
    Option (Option String × Certificate) :=
  if res.contentType = "application/pkix-cert" then
    let crt1 : Certificate := { crt with certificate := res.rawBody }
    match loadExtraCertificates serve resolve crt.uri fuel res [] with
    | none => none
    | some (some e, extras) => some (some e, { crt1 with extraCertificates := extras })
    | some (none, extras) =>
      some (none,
        { crt1 with
          extraCertificates := extras
          retryAt := retryAtDefault parseDate now res.retryAfter 10 })
  else if res.statusCode = 200 then
    some (some ("Certificate returned with unexpected type: " ++ res.contentType), crt)
  else
    some (none, { crt with retryAt := retryAtDefault parseDate now res.retryAfter 10 })

/-- Embeds `waitUntil` (api.go:821-843). `ctxDone` is whether `ctx.Done()` is
already closed when the function runs (the model assumes the context's state
does not change during the call). The result pairs Go's return value with the
time spent blocked: the wake-up channel is the pre-closed `closedChannel`
(ready immediately) unless `t.After(now)`, in which case `time.After(t - now)`
fires after `t - now` (api.go:822-827). The outer select with a default case
(api.go:831-834) takes the `ctx.Done()` branch whenever that channel is ready
— even though the wake-up channel may be ready as well — and otherwise falls
through to the inner select (api.go:835-839), which completes when the
wake-up channel fires. -/
def waitUntil (ctxDone : Bool) (t now : Int) : Except String Unit × Int :=
  let chReadyAfter : Int := if now < t then t - now else 0
  if ctxDone then (.error "context canceled", 0)
  else (.ok (), chReadyAfter)

/-- Outcome of `getRegistrationURI`: Go's return value, the value of
`c.AccountInfo.RegistrationURI` after the call, and whether the new-reg POST
was dispatched at all. -/
structure RegURIOutcome where
  result : Except String String
  registrationURI : String
  posted : Bool

/-- Embeds `Client.getRegistrationURI` (api.go:441-476). `cached` is the
Client's current `AccountInfo.RegistrationURI`; `dir` the outcome of
`getDirectory` (its new-reg URL on success); `net` the outcome of the POST of
the `new-reg` object to that endpoint; `validURL` abstracts `ValidURL`
(api.go:377-380). A 201 or 409 status is accepted — even alongside a non-nil
`doReq` error — requiring a valid `Location` header which is cached;
otherwise the `doReq` error, or an unexpected-status error, is returned. -/
def getRegistrationURI (validURL : String → Bool) (cached : String)
    (dir : Except String String) (net : Except String HttpResponse) :
    RegURIOutcome :=
  if cached ≠ "" then ⟨.ok cached, cached, false⟩
  else
    match dir with
    | .error e => ⟨.error e, cached, false⟩
    | .ok _ =>
      match doReqReg net with
      | (none, err) => ⟨.error (err.getD ""), cached, true⟩
      | (some res, err) =>
        if res.statusCode = 201 ∨ res.statusCode = 409 then
          if validURL res.location = false then
            ⟨.error ("invalid URL: " ++ res.location), cached, true⟩
          else ⟨.ok res.location, res.location, true⟩
        else
          match err with
          | some e => ⟨.error e, cached, true⟩
          | none =>
            ⟨.error ("unexpected status code: " ++ toString res.statusCode), cached, true⟩

/-- Errors surfaced by `UpsertRegistration`: the structured `AgreementError`
(api.go:228-234) carrying the required agreement URI, or any other error. -/
inductive UpsertError where
  | agreement (uri : String)
  | other (msg : String)
deriving DecidableEq

/-- Embeds `Client.UpsertRegistration` (api.go:484-518) after the
registration URI is known (`getRegistrationURI` is the subject of its own
claim). `net1` is the outcome of the `reg` update POST, `net2` of the
agreement re-POST should one be issued. The second component of the result is
the agreement URI attached to a second POST when one is made (`none` = no
second POST). -/
def UpsertRegistration (agreementURIs : List String)
    (net1 net2 : Except String HttpResponse) :
    Except UpsertError Unit × Option String :=
  match doReqRegE net1 with
  | .error e => (.error (.other e), none)
  | .ok (res, body) =>
    match res.tosLink with
    | none => (.ok (), none)
    | some tos =>
      if body.agreementURI ≠ tos then
        if tos ∈ agreementURIs then
          match doReqRegE net2 with
          | .error e => (.error (.other e), some tos)
          | .ok _ => (.ok (), some tos)
        else (.error (.agreement tos), none)
      else (.ok (), none)

/-- Nonce pool insertion. Modelled from the spec: the nonce source
implementation is not under src/ (only `c.nonceSource.AddNonce` is called
from api.go:351); spec section 4.1 allows duplicates to be dropped or
deduplicated, and this model deduplicates. -/
def addNonce (pool : List String) (n : String) : List String :=
  if n ∈ pool then pool else pool ++ [n]

/-- Nonce acquisition at signing time. Modelled from the spec: the nonce
source implementation is not under src/ (the jose signer draws from
`c.nonceSource`, api.go:317); spec section 4.1 has `Get` take a pooled nonce
or replenish via a HEAD round trip (abstracted as `replenish`), failing when
no nonce can be obtained. -/
def nonceForSign (pool : List String) (replenish : Option String) :
    Except String (String × List String) :=
  match pool with
  | n :: rest => .ok (n, rest)
  | [] =>
    match replenish with
    | some n => .ok (n, [])
    | none => .error "unable to obtain nonce"

/-- Outcome of `doReqEx`: Go's `(res, err)` pair, the nonce pool after the
call, and the URLs actually handed to `ctxhttp.Do`. -/
structure DoReqExOutcome where
  res : Option HttpResponse := none
  err : Option String := none
  pool : List String := []
  dispatched : List String := []
deriving DecidableEq

/-- Embeds `Client.doReqEx` (api.go:284-372) for a request with no response
decode target (`r = nil`). `validURL` abstracts `ValidURL`; `body` is `none`
for `v == nil` and otherwise carries the result of `json.Marshal(v)`;
`key`/`accountKey` are the per-call key and `c.AccountInfo.AccountKey`;
`replenish` and `pool` model the nonce source as in `nonceForSign`; `net` is
the transport outcome. `jose.NewSigner` on an algorithm derived from the same
key is assumed to succeed, and the signature bytes (not observable here) are
elided; `http.NewRequest` and header assignment are pure and elided. -/
def doReqEx (validURL : String → Bool) (url : String)
    (key accountKey : Option PrivateKey)
    (body : Option (Except String (List Nat)))
    (replenish : Option String)
    (net : Except String HttpResponse) (pool : List String) : DoReqExOutcome :=
  if validURL url = false then
    { err := some ("invalid URL: " ++ url), pool := pool }
  else
    let key' : Option PrivateKey :=
      match key with
      | none => accountKey
      | some k => some k
    let signed : Except String (List String) :=
      match body with
      | none => .ok pool
      | some (.error e) => .error e
      | some (.ok _) =>
        match key' with
        | none => .error "account key must be specified"
        | some k =>
          match algorithmFromKey k with
          | .error e => .error e
          | .ok _ =>
            match nonceForSign pool replenish with
            | .error e => .error e
            | .ok (_, pool1) => .ok pool1
    match signed with
    | .error e => { err := some e, pool := pool }
    | .ok pool1 =>
      match net with
      | .error e => { err := some e, pool := pool1, dispatched := [url] }
      | .ok res =>
        let pool2 :=
          if res.replayNonce ≠ "" then addNonce pool1 res.replayNonce else pool1
        if 400 ≤ res.statusCode ∧ res.statusCode < 600 then
          { res := some res
            err := some ("HTTP error: " ++ toString res.statusCode)
            pool := pool2
            dispatched := [url] }
        else
          { res := some res, pool := pool2, dispatched := [url] }

/-! Concrete inputs used by witnesses and counterexamples. -/

/-- A date parser accepting nothing: RFC 1123 parsing rejecting the input. -/
def pdNone : String → Option Int := fun _ => none

/-- A URL validity check by scheme prefix, agreeing with `ValidURL`
(api.go:377-380, `TestingNoTLS = false`) on the concrete URLs used below. -/
def vuHttps (u : String) : Bool := u.data.take 8 == "https://".data

/-- A pending http-01 challenge. -/
def c1Challenge : Challenge :=
  { uri := "https://ca/chal/0", type := "http-01", status := "pending", token := "tok" }

/-- An authorization body carrying one challenge and an explicitly empty
combinations array (JSON `"combinations": []`, which decodes to a non-nil
empty slice). -/
def c1EmptyCombosBody : AzResponseBody :=
  { challenges := some [c1Challenge], combinations := some ([] : List (List Int)) }

/-- A 200 response delivering `c1EmptyCombosBody`. -/
def c1EmptyCombosRes : HttpResponse :=
  { statusCode := 200, contentType := "application/json",
    azBody := some c1EmptyCombosBody }

/-- An authorization body with one challenge and a combination naming the
out-of-range index 5. -/
def c1MalBody : AzResponseBody :=
  { challenges := some [c1Challenge], combinations := some [[(5 : Int)]] }

/-- A 200 response delivering `c1MalBody`. -/
def c1MalRes : HttpResponse :=
  { statusCode := 200, contentType := "application/json", azBody := some c1MalBody }

/-- A certificate response whose `up` link points back at the certificate URI
itself: a one-element cycle of `up` links. -/
def cyclicResponse : HttpResponse :=
  { statusCode := 200, contentType := "application/pkix-cert",
    upLink := some "https://ca/cert", rawBody := [1] }

/-- A server that always answers with `cyclicResponse`, so every response in
the chain walk carries an `up` link. -/
def cyclicServe : String → Except String HttpResponse := fun _ => .ok cyclicResponse

/-- Resolution of an absolute reference: `ResolveReference` returns the
reference itself. -/
def resolveAbsolute : String → String → Option String := fun _ u => some u

/-- A server oracle for calls that are not supposed to hit the network. -/
def serveNone : String → Except String HttpResponse := fun _ => .error "no server"

/-- A resolver for calls that are not supposed to resolve anything. -/
def resolveNone : String → String → Option String := fun _ _ => none

/-- A pending (non-pkix, non-200) certificate poll response. -/
def c10Res : HttpResponse :=
  { statusCode := 202, contentType := "application/problem+json", retryAfter := "120" }

/-- A certificate value with leaf and intermediates already present. -/
def c10Crt : Certificate :=
  { uri := "https://ca/cert/5", certificate := [7], extraCertificates := [[8]] }

/-- A registration update response requiring agreement with a
terms-of-service URI the returned registration has not agreed to. -/
def c7Res1 : HttpResponse :=
  { statusCode := 200, contentType := "application/json",
    tosLink := some "https://ca/tos/v2", regBody := some { agreementURI := "" } }

/-- The response to the agreement re-POST. -/
def c7Res2 : HttpResponse :=
  { statusCode := 200, contentType := "application/json",
    regBody := some { agreementURI := "https://ca/tos/v2" } }

/-! Helper lemmas shared between claims. -/

/-- Decoding into an authorization whose combinations were just cleared gives
exactly the server's combinations field. -/
theorem decodeAzInto_cleared_combinations (az : Authorization) (b : AzResponseBody) :
    (decodeAzInto { az with combinations := none } b).combinations = b.combinations := by
  obtain ⟨bi, bs, bc, bcomb⟩ := b
  cases bcomb <;> rfl

/-- Synthesis does not touch the challenges list. -/
theorem synthCombinations_challenges (az : Authorization) :
    az.synthCombinations.challenges = az.challenges := by
  rw [Authorization.synthCombinations]
  split <;> rfl

/-- Synthesis on a nil combinations slice installs the full index list. -/
theorem synthCombinations_of_none {az : Authorization} (h : az.combinations = none) :
    az.synthCombinations.combinations =
      some [(List.range az.challenges.length).map (fun k => (k : Int))] := by
  simp [Authorization.synthCombinations, h]

/-- Synthesis keeps a non-nil combinations slice as it is. -/
theorem synthCombinations_of_some {az : Authorization} {cs : List (List Int)}
    (h : az.combinations = some cs) : az.synthCombinations = az := by
  simp [Authorization.synthCombinations, h]

/-- What a successful `validate` guarantees: challenges untouched and
non-empty, combinations non-nil, synthesized exactly when the input slice was
nil, kept as-is otherwise, and every index of every combination in range. -/
theorem validate_ok_props {az az' : Authorization} (h : az.validate = .ok az') :
    az'.challenges = az.challenges ∧
    az'.challenges ≠ [] ∧
    az'.combinations ≠ none ∧
    (az.combinations = none →
      az'.combinations =
        some [(List.range az.challenges.length).map (fun k => (k : Int))]) ∧
    (∀ cs, az.combinations = some cs → az'.combinations = some cs) ∧
    (∀ c ∈ az'.combinations.getD [], ∀ i ∈ c, i < (az'.challenges.length : Int)) := by
  simp only [Authorization.validate] at h
  split at h
  · simp at h
  next h0 =>
    split at h
    next hall =>
      injection h with h
      subst h
      have hch := synthCombinations_challenges az
      have hne : az.challenges ≠ [] := by
        intro hnil
        exact h0 (by simp [hnil])
      refine ⟨hch, hch ▸ hne, ?_, ?_, ?_, ?_⟩
      · cases hcomb : az.combinations with
        | none => simp [synthCombinations_of_none hcomb]
        | some cs0 => simp [synthCombinations_of_some hcomb, hcomb]
      · intro hnone
        exact synthCombinations_of_none hnone
      · intro cs hcs
        rw [synthCombinations_of_some hcs]
        exact hcs
      · intro c hc i hi
        simp only [List.all_eq_true, decide_eq_true_eq] at hall
        rw [hch]
        exact hall c hc i hi
    · simp at h

/-- C3. For every string s: `Status.Valid` is true iff s is one of the six
recognised status strings; `Status.Final` is true iff s is one of "valid",
"invalid", "revoked"; and status JSON unmarshalling fails on every string
outside the six valid values, leaving the target unmodified, while a valid
string is assigned to the target. -/
theorem C3_status_valid_final_unmarshal : ∀ s old : Status,
    (Status.Valid s = true ↔
      (s = "unknown" ∨ s = "pending" ∨ s = "processing" ∨
       s = "valid" ∨ s = "invalid" ∨ s = "revoked")) ∧
    (Status.Final s = true ↔ (s = "valid" ∨ s = "invalid" ∨ s = "revoked")) ∧
    (Status.Valid s = false →
      Status.unmarshalJSON s old = (some ("not a valid status: " ++ s), old)) ∧
    (Status.Valid s = true → Status.unmarshalJSON s old = (none, s)) := by
  intro s old
  refine ⟨?_, ?_, ?_, ?_⟩
  · simp only [Status.Valid, Bool.or_eq_true, beq_iff_eq]
    tauto
  · simp only [Status.Final, Bool.or_eq_true, beq_iff_eq]
    tauto
  · intro h
    simp [Status.unmarshalJSON, h]
  · intro h
    simp [Status.unmarshalJSON, h]

/-- Witness for C3 at concrete inputs: "bogus" is not a valid status and
unmarshalling it leaves the target at its old value "pending". -/
theorem C3_witness :
    Status.unmarshalJSON "bogus" "pending" =
      (some ("not a valid status: " ++ "bogus"), "pending") :=
  (C3_status_valid_final_unmarshal "bogus" "pending").2.2.1 (by decide)

/-- C4. Signing-algorithm selection is a pure function of the private key: an
RSA key yields RS256; an ECDSA key yields ES256 for P-256, ES384 for P-384,
ES512 for P-521; any other ECDSA curve and any other key type yield an
unsupported-key error and no algorithm. -/
theorem C4_algorithmFromKey :
    algorithmFromKey PrivateKey.rsa = .ok "RS256" ∧
    algorithmFromKey (.ecdsa "P-256") = .ok "ES256" ∧
    algorithmFromKey (.ecdsa "P-384") = .ok "ES384" ∧
    algorithmFromKey (.ecdsa "P-521") = .ok "ES512" ∧
    (∀ c, c ≠ "P-256" → c ≠ "P-384" → c ≠ "P-521" →
      algorithmFromKey (.ecdsa c) = .error ("unsupported ECDSA curve: " ++ c)) ∧
    (∀ t, algorithmFromKey (.other t) =
      .error ("unsupported private key type: " ++ t)) := by
  refine ⟨rfl, rfl, rfl, rfl, ?_, fun t => rfl⟩
  intro c h1 h2 h3
  simp [algorithmFromKey, h1, h2, h3]

/-- Witness for C4 at a concrete input: an unrecognised ECDSA curve fails. -/
theorem C4_witness :
    algorithmFromKey (.ecdsa "P-224") = .error ("unsupported ECDSA curve: " ++ "P-224") :=
  C4_algorithmFromKey.2.2.2.2.1 "P-224" (by decide) (by decide) (by decide)

/-- C5. Retry-After parsing: a decimal integer seconds count n with
0 ≤ n < 2^31 yields now + n; otherwise a string the RFC 1123 parser accepts
yields that instant and any other non-empty string (negative numbers,
integers ≥ 2^31, other date formats — all rejected by both parsers) is
absent, as is an empty (missing) header; `retryAtDefault` returns the parsed
instant when present and now + d otherwise. -/
theorem C5_parseRetryAfter :
    ∀ (parseDate : String → Option Int) (now : Int) (v : String) (d : Int),
    (∀ n, parseUint31 v = some n →
      parseRetryAfter parseDate now v = some (now + (n : Int))) ∧
    (parseUint31 v = none → v ≠ "" →
      parseRetryAfter parseDate now v = parseDate v) ∧
    (parseRetryAfter parseDate now "" = none) ∧
    (parseRetryAfter parseDate now v = none →
      retryAtDefault parseDate now v d = now + d) ∧
    (∀ t, parseRetryAfter parseDate now v = some t →
      retryAtDefault parseDate now v d = t) := by
  intro parseDate now v d
  refine ⟨?_, ?_, ?_, ?_, ?_⟩
  · intro n h
    have hv : v ≠ "" := by
      intro hv
      subst hv
      rw [show parseUint31 "" = none from rfl] at h
      cases h
    simp [parseRetryAfter, hv, h]
  · intro h hv
    simp [parseRetryAfter, hv, h]
  · simp [parseRetryAfter]
  · intro h
    simp [retryAtDefault, h]
  · intro t h
    simp [retryAtDefault, h]

/-- Witness for C5 at concrete inputs: "120" yields now + 120; "-5" and
"2147483648" (= 2^31) are rejected by the integer parser and, the date parser
also rejecting them, treated as absent, so the caller default applies. -/
theorem C5_witness :
    parseRetryAfter pdNone 0 "120" = some (0 + (120 : Int)) ∧
    parseRetryAfter pdNone 0 "-5" = pdNone "-5" ∧
    parseRetryAfter pdNone 0 "2147483648" = pdNone "2147483648" ∧
    retryAtDefault pdNone 0 "2147483648" 10 = 0 + 10 :=
  ⟨(C5_parseRetryAfter pdNone 0 "120" 10).1 120 rfl,
   (C5_parseRetryAfter pdNone 0 "-5" 10).2.1 rfl (by decide),
   (C5_parseRetryAfter pdNone 0 "2147483648" 10).2.1 rfl (by decide),
   (C5_parseRetryAfter pdNone 0 "2147483648" 10).2.2.2.1 rfl⟩

/-- C8. The waiting primitive used by the WaitLoad functions returns the
context's error whenever the context is already cancelled — for every poll
instant, including one already passed whose wake-up channel is immediately
ready — and, for a non-cancelled context with an already-expired poll
instant, returns success with zero time spent blocked, so the network call
proceeds without delay. -/
theorem C8_waitUntil : ∀ t now : Int,
    (waitUntil true t now = (.error "context canceled", 0)) ∧
    (t ≤ now → waitUntil false t now = (.ok (), 0)) := by
  intro t now
  refine ⟨rfl, ?_⟩
  intro h
  simp [waitUntil, show ¬now < t from not_lt.mpr h]

/-- Witness for C8 at a concrete input: poll instant 3 already passed at time
5; a cancelled context still gets the context error, a live one returns at
once. -/
theorem C8_witness :
    waitUntil true 3 5 = (.error "context canceled", 0) ∧
    waitUntil false 3 5 = (.ok (), 0) :=
  ⟨(C8_waitUntil 3 5).1, (C8_waitUntil 3 5).2 (by decide)⟩

/-- C10. For every `loadCertificate` call whose response has a content type
other than application/pkix-cert and a status code other than 200 (a
still-pending certificate), the call returns success and updates only the
certificate's retry instant: the leaf and the extra certificates are left
unchanged (the result is exactly the input record with `retryAt` replaced). -/
theorem C10_loadCertificate_pending_frame :
    ∀ (serve : String → Except String HttpResponse)
      (resolve : String → String → Option String)
      (parseDate : String → Option Int) (now : Int)
      (crt : Certificate) (res : HttpResponse) (fuel : Nat),
    res.contentType ≠ "application/pkix-cert" →
    res.statusCode ≠ 200 →
    loadCertificate serve resolve parseDate now crt res fuel =
      some (none, { crt with retryAt := retryAtDefault parseDate now res.retryAfter 10 }) ∧
    ({ crt with retryAt := retryAtDefault parseDate now res.retryAfter 10 } :
        Certificate).certificate = crt.certificate ∧
    ({ crt with retryAt := retryAtDefault parseDate now res.retryAfter 10 } :
        Certificate).extraCertificates = crt.extraCertificates := by
  intro serve resolve parseDate now crt res fuel h1 h2
  refine ⟨?_, rfl, rfl⟩
  simp [loadCertificate, h1, h2]

/-- Witness for C10 at a concrete input: a 202 problem+json poll response
leaves leaf and intermediates alone and only bumps the retry instant. -/
theorem C10_witness :
    loadCertificate serveNone resolveNone pdNone 0 c10Crt c10Res 3 =
      some (none, { c10Crt with retryAt := retryAtDefault pdNone 0 c10Res.retryAfter 10 }) ∧
    ({ c10Crt with retryAt := retryAtDefault pdNone 0 c10Res.retryAfter 10 } :
        Certificate).certificate = c10Crt.certificate ∧
    ({ c10Crt with retryAt := retryAtDefault pdNone 0 c10Res.retryAfter 10 } :
        Certificate).extraCertificates = c10Crt.extraCertificates :=
  C10_loadCertificate_pending_frame serveNone resolveNone pdNone 0 c10Crt c10Res 3
    (by decide) (by decide)

/-- C2. The certificate chain walk does not terminate when the server
presents a cycle in `up` links: against a server whose every response carries
an `up` link resolving back to the certificate URI, no iteration bound
suffices for the loop of `loadExtraCertificates` to return — the source loop
has no visited set or chain-length cap, so it diverges. (The walk does stop
on the first response lacking an `up` link, which is the only way it can
terminate.) -/
theorem C2_chain_walk_diverges_on_up_cycle :
    ∀ (fuel : Nat) (acc : List (List Nat)),
    loadExtraCertificates cyclicServe resolveAbsolute "https://ca/cert" fuel
      cyclicResponse acc = none := by
  intro fuel
  induction fuel with
  | zero => intro acc; rfl
  | succ n ih =>
    intro acc
    exact ih (acc ++ [cyclicResponse.rawBody])

/-- Case analysis of `doReqAz` on a delivered response whose body decodes as
an authorization: either every check passes and the decoded pair is returned,
or some check fails with an error. -/
theorem doReqAz_cases (res : HttpResponse) (b : AzResponseBody)
    (hb : res.azBody = some b) :
    doReqAz (.ok res) = .ok (res, b) ∨ ∃ e, doReqAz (.ok res) = .error e := by
  simp only [doReqAz, hb]
  split
  · exact .inr ⟨_, rfl⟩
  split
  · exact .inr ⟨_, rfl⟩
  · exact .inl rfl

/-- C1 (amended). For every Authorization returned successfully by
NewAuthorization or LoadAuthorization, Combinations is non-nil and every
index appearing in any combination is < len(Challenges); when the server's
response carries no combinations field, validation synthesizes the single
in-order combination over all challenge indices (so Combinations is then
non-empty), and LoadAuthorization clears Combinations before decoding so the
server's view — including an explicitly empty combinations array, which is
kept empty — replaces any local synthesis; an empty Challenges list or an
out-of-range combination index makes the operation fail with the
corresponding malformed-input error. -/
theorem C1_authorization_combinations :
    (∀ (parseDate : String → Option Int) (now : Int) (az : Authorization)
       (res : HttpResponse) (b : AzResponseBody) (az' : Authorization),
       res.azBody = some b →
       LoadAuthorization parseDate now az (.ok res) = .ok az' →
       az'.combinations ≠ none ∧
       az'.challenges ≠ [] ∧
       (∀ c ∈ az'.combinations.getD [], ∀ i ∈ c, i < (az'.challenges.length : Int)) ∧
       (b.combinations = none →
         az'.combinations =
           some [(List.range az'.challenges.length).map (fun k => (k : Int))]) ∧
       (∀ cs, b.combinations = some cs → az'.combinations = some cs)) ∧
    (∀ (validURL : String → Bool) (hostname : String) (res : HttpResponse)
       (b : AzResponseBody) (az' : Authorization),
       res.azBody = some b →
       NewAuthorization validURL hostname (.ok res) = .ok az' →
       az'.combinations ≠ none ∧
       az'.challenges ≠ [] ∧
       (∀ c ∈ az'.combinations.getD [], ∀ i ∈ c, i < (az'.challenges.length : Int))) ∧
    (∀ (parseDate : String → Option Int) (now : Int) (az : Authorization)
       (res : HttpResponse) (b : AzResponseBody),
       res.azBody = some b →
       res.contentType = "application/json" →
       res.statusCode < 400 →
       b.challenges.getD az.challenges = [] →
       LoadAuthorization parseDate now az (.ok res) = .error "no challenges offered") ∧
    (∀ (parseDate : String → Option Int) (now : Int) (az : Authorization)
       (res : HttpResponse) (b : AzResponseBody) (cs : List (List Int))
       (c : List Int) (i : Int),
       res.azBody = some b →
       res.contentType = "application/json" →
       res.statusCode < 400 →
       b.challenges.getD az.challenges ≠ [] →
       b.combinations = some cs →
       c ∈ cs → i ∈ c →
       ((b.challenges.getD az.challenges).length : Int) ≤ i →
       LoadAuthorization parseDate now az (.ok res) =
         .error "one or more combinations are malformed") := by
  refine ⟨?_, ?_, ?_, ?_⟩
  · intro pd now az res b az' hb h
    rcases doReqAz_cases res b hb with hok | ⟨e, he⟩
    · simp only [LoadAuthorization, hok] at h
      cases hv : (decodeAzInto { az with combinations := none } b).validate with
      | error e2 => simp [hv] at h
      | ok az1 =>
        simp only [hv] at h
        injection h with h
        subst h
        obtain ⟨p1, p2, p3, p4, p5, p6⟩ := validate_ok_props hv
        have hDch : (decodeAzInto { az with combinations := none } b).challenges =
            b.challenges.getD az.challenges := rfl
        have hDcomb := decodeAzInto_cleared_combinations az b
        refine ⟨p3, p2, p6, ?_, ?_⟩
        · intro hbc
          have h4 := p4 (hDcomb.trans hbc)
          show az1.combinations =
            some [(List.range az1.challenges.length).map (fun k => (k : Int))]
          rw [p1]
          exact h4
        · intro cs hcs
          exact p5 cs (hDcomb.trans hcs)
    · simp [LoadAuthorization, he] at h
  · intro vu hostname res b az' hb h
    rcases doReqAz_cases res b hb with hok | ⟨e, he⟩
    · simp only [NewAuthorization, hok] at h
      split at h
      · simp at h
      · obtain ⟨p1, p2, p3, p4, p5, p6⟩ := validate_ok_props h
        exact ⟨p3, p2, p6⟩
    · simp [NewAuthorization, he] at h
  · intro pd now az res b hb hct h400 hch
    have h1 : ¬(400 ≤ res.statusCode ∧ res.statusCode < 600) := by omega
    have hok : doReqAz (.ok res) = .ok (res, b) := by
      simp [doReqAz, hb, hct, h1]
    simp only [LoadAuthorization, hok]
    have hv : (decodeAzInto { az with combinations := none } b).validate =
        .error "no challenges offered" := by
      simp [Authorization.validate,
        show (decodeAzInto { az with combinations := none } b).challenges =
          b.challenges.getD az.challenges from rfl, hch]
    simp [hv]
  · intro pd now az res b cs c i hb hct h400 hch hcs hc hi hlen
    have h1 : ¬(400 ≤ res.statusCode ∧ res.statusCode < 600) := by omega
    have hok : doReqAz (.ok res) = .ok (res, b) := by
      simp [doReqAz, hb, hct, h1]
    simp only [LoadAuthorization, hok]
    have hDch : (decodeAzInto { az with combinations := none } b).challenges =
        b.challenges.getD az.challenges := rfl
    have hDcomb : (decodeAzInto { az with combinations := none } b).combinations =
        some cs := by
      rw [decodeAzInto_cleared_combinations]
      exact hcs
    have hv : (decodeAzInto { az with combinations := none } b).validate =
        .error "one or more combinations are malformed" := by
      rw [Authorization.validate]
      rw [if_neg (by simp [hDch, hch])]
      simp only [synthCombinations_of_some hDcomb, hDcomb, Option.getD_some, hDch]
      rw [if_neg]
      intro hall
      simp only [List.all_eq_true, decide_eq_true_eq] at hall
      have hx := hall c hc i hi
      omega
    simp [hv]

/-- Counterexample to C1 as frozen: a server response carrying an explicitly
empty combinations array (JSON `[]`, a non-nil empty slice after decoding)
passes validation unchanged, so LoadAuthorization succeeds returning an
Authorization whose Combinations list is empty — not non-empty as claimed. -/
theorem C1_counterexample :
    (LoadAuthorization pdNone 0 {} (.ok c1EmptyCombosRes)).toOption.map
      Authorization.combinations = some (some []) := rfl

/-- Witness for C1 at a concrete input: one challenge and the combination
[[5]] naming the out-of-range index 5 make LoadAuthorization fail with the
malformed-combinations error. -/
theorem C1_witness :
    LoadAuthorization pdNone 0 {} (.ok c1MalRes) =
      .error "one or more combinations are malformed" :=
  C1_authorization_combinations.2.2.2 pdNone 0 {} c1MalRes c1MalBody
    [[(5 : Int)]] [(5 : Int)] 5 rfl rfl (by decide) (by decide) rfl (by decide)
    (by decide) (by decide)

/-- C6. Registration discovery treats 201 and 409 symmetrically: with no
registration URI cached (and the directory fetched), a delivered new-reg POST
response with status 201 or 409 succeeds exactly when its Location passes the
URL check, in which case the Location is returned and cached as the Client's
registration URI, and fails with an invalid-URL error otherwise; any other
status fails with the underlying doReq error or an unexpected-status error; a
POST whose response was consumed by doReq (transport or body-decode failure)
fails; and when a registration URI is already cached, nothing is fetched or
posted and the cached URI is returned. -/
theorem C6_getRegistrationURI_status :
    ∀ (validURL : String → Bool) (cached : String) (dir : Except String String)
      (net : Except String HttpResponse),
    (cached ≠ "" →
      getRegistrationURI validURL cached dir net = ⟨.ok cached, cached, false⟩) ∧
    (∀ d res, dir = .ok d → (doReqReg net).1 = some res →
      (res.statusCode = 201 ∨ res.statusCode = 409) →
      (validURL res.location = true →
        getRegistrationURI validURL "" dir net =
          ⟨.ok res.location, res.location, true⟩) ∧
      (validURL res.location = false →
        getRegistrationURI validURL "" dir net =
          ⟨.error ("invalid URL: " ++ res.location), "", true⟩)) ∧
    (∀ d res, dir = .ok d → (doReqReg net).1 = some res →
      res.statusCode ≠ 201 → res.statusCode ≠ 409 →
      ∃ e, getRegistrationURI validURL "" dir net = ⟨.error e, "", true⟩) ∧
    (∀ d, dir = .ok d → (doReqReg net).1 = none →
      ∃ e, getRegistrationURI validURL "" dir net = ⟨.error e, "", true⟩) := by
  intro vu cached dir net
  refine ⟨?_, ?_, ?_, ?_⟩
  · intro h
    simp [getRegistrationURI, h]
  · intro d res hdir hres hst
    subst hdir
    rcases hdr : doReqReg net with ⟨r1, e1⟩
    rw [hdr] at hres
    simp only at hres
    subst hres
    constructor
    · intro hvu
      simp [getRegistrationURI, hdr, hst, hvu]
    · intro hvu
      simp [getRegistrationURI, hdr, hst, hvu]
  · intro d res hdir hres h1 h2
    subst hdir
    rcases hdr : doReqReg net with ⟨r1, e1⟩
    rw [hdr] at hres
    simp only at hres
    subst hres
    cases e1 with
    | some e => exact ⟨e, by simp [getRegistrationURI, hdr, h1, h2]⟩
    | none =>
      exact ⟨"unexpected status code: " ++ toString res.statusCode,
        by simp [getRegistrationURI, hdr, h1, h2]⟩
  · intro d hdir hres
    subst hdir
    rcases hdr : doReqReg net with ⟨r1, e1⟩
    rw [hdr] at hres
    simp only at hres
    subst hres
    exact ⟨e1.getD "", by simp [getRegistrationURI, hdr]⟩

/-- Witness for C6 at a concrete input: with a cached registration URI the
call returns it unchanged and makes no request — the directory and network
oracles fail, yet the result is a success that never consulted them. -/
theorem C6_witness :
    getRegistrationURI vuHttps "https://ca/reg/1" (.error "no dir")
        (.error "no net") =
      ⟨.ok "https://ca/reg/1", "https://ca/reg/1", false⟩ :=
  (C6_getRegistrationURI_status vuHttps "https://ca/reg/1" (.error "no dir")
    (.error "no net")).1 (by decide)

/-- C7. In UpsertRegistration, when the update response carries a
terms-of-service link whose URI differs from the returned registration's
agreement URI: a URI outside the Client's pre-accepted set fails with an
AgreementError carrying exactly that URI and no second POST; a URI in the set
triggers a second POST carrying it, and the operation succeeds iff that POST
does; with no terms-of-service link, or when the URIs already agree, the
operation succeeds with no extra POST. -/
theorem C7_upsertRegistration_agreement :
    ∀ (agreementURIs : List String) (net1 net2 : Except String HttpResponse)
      (res : HttpResponse) (body : RegInfoBody),
    doReqRegE net1 = .ok (res, body) →
    ((res.tosLink = none →
       UpsertRegistration agreementURIs net1 net2 = (.ok (), none)) ∧
     (∀ tos, res.tosLink = some tos → body.agreementURI = tos →
       UpsertRegistration agreementURIs net1 net2 = (.ok (), none)) ∧
     (∀ tos, res.tosLink = some tos → body.agreementURI ≠ tos →
       tos ∉ agreementURIs →
       UpsertRegistration agreementURIs net1 net2 =
         (.error (.agreement tos), none)) ∧
     (∀ tos, res.tosLink = some tos → body.agreementURI ≠ tos →
       tos ∈ agreementURIs →
       (∀ r2 b2, doReqRegE net2 = .ok (r2, b2) →
         UpsertRegistration agreementURIs net1 net2 = (.ok (), some tos)) ∧
       (∀ e, doReqRegE net2 = .error e →
         UpsertRegistration agreementURIs net1 net2 =
           (.error (.other e), some tos)))) := by
  intro A net1 net2 res body h1
  refine ⟨?_, ?_, ?_, ?_⟩
  · intro ht
    simp [UpsertRegistration, h1, ht]
  · intro tos ht ha
    simp [UpsertRegistration, h1, ht, ha]
  · intro tos ht ha hm
    simp [UpsertRegistration, h1, ht, ha, hm]
  · intro tos ht ha hm
    constructor
    · intro r2 b2 h2
      simp [UpsertRegistration, h1, ht, ha, hm, h2]
    · intro e h2
      simp [UpsertRegistration, h1, ht, ha, hm, h2]

/-- Witness for C7 at a concrete input: the required terms-of-service URI is
pre-accepted, so a second POST carrying it is made and the operation
succeeds. -/
theorem C7_witness :
    UpsertRegistration ["https://ca/tos/v2"] (.ok c7Res1) (.ok c7Res2) =
      (.ok (), some "https://ca/tos/v2") :=
  ((C7_upsertRegistration_agreement ["https://ca/tos/v2"] (.ok c7Res1)
      (.ok c7Res2) c7Res1 { agreementURI := "" } rfl).2.2.2
    "https://ca/tos/v2" rfl (by decide) (by decide)).1 c7Res2
    { agreementURI := "https://ca/tos/v2" } rfl

/-- C9 (amended). For every request with a non-nil body payload where both
the per-call key and the Client's account key are nil, the transactor fails
before constructing or dispatching any HTTP request, leaving the nonce pool
unchanged; when the URL passes validation and the payload marshals, the error
is exactly "account key must be specified" (an invalid URL or a marshal
failure surfaces that earlier error instead, still with nothing dispatched
and the pool unchanged). -/
theorem C9_missing_account_key :
    ∀ (validURL : String → Bool) (url : String) (mb : Except String (List Nat))
      (replenish : Option String) (net : Except String HttpResponse)
      (pool : List String),
    (doReqEx validURL url none none (some mb) replenish net pool).res = none ∧
    (doReqEx validURL url none none (some mb) replenish net pool).err ≠ none ∧
    (doReqEx validURL url none none (some mb) replenish net pool).pool = pool ∧
    (doReqEx validURL url none none (some mb) replenish net pool).dispatched = [] ∧
    (validURL url = true → ∀ bts, mb = .ok bts →
      (doReqEx validURL url none none (some mb) replenish net pool).err =
        some "account key must be specified") := by
  intro vu url mb rep net pool
  cases hvu : vu url
  · simp [doReqEx, hvu]
  · cases mb with
    | error e => simp [doReqEx, hvu]
    | ok bts => simp [doReqEx, hvu]

/-- Counterexample to C9 as frozen: a request with a non-nil body and both
keys nil but an invalid (non-HTTPS) URL fails with the invalid-URL error, not
with "account key must be specified" as the claim requires of every such
request. -/
theorem C9_counterexample :
    (doReqEx vuHttps "http://ca/acme" none none (some (.ok [1])) none
        (.ok {}) ["n0"]).err = some ("invalid URL: " ++ "http://ca/acme") ∧
    ("invalid URL: " ++ "http://ca/acme") ≠ "account key must be specified" :=
  ⟨rfl, by decide⟩

/-- Witness for C9 at a concrete input: valid URL, marshalable body, both
keys nil — the account-key error is returned. -/
theorem C9_witness :
    (doReqEx vuHttps "https://ca/acme" none none (some (.ok [1])) none
        (.ok {}) ["n0"]).err = some "account key must be specified" :=
  (C9_missing_account_key vuHttps "https://ca/acme" (.ok [1]) none (.ok {})
    ["n0"]).2.2.2.2 (by decide) [1] rfl

end Acme
